import Mathlib

/-!
Shallow embedding of the PNG chunk-type module (src/chunk_type.rs).

Bytes (Rust u8) are modelled as Nat; every operation of the source is
overflow-free, so no reduction modulo 2^8 is needed.  A Rust string input
is modelled as its byte sequence (List Nat), matching the source, which
immediately takes s.as_bytes() and whose length check s.len() counts bytes.
-/

/-- The 4-byte array [u8; 4] stored by ChunkType. -/
structure Bytes4 where
  b0 : Nat
  b1 : Nat
  b2 : Nat
  b3 : Nat
deriving DecidableEq, Repr

/-- The bytes of the array in index order, used to model iteration over the
array (for byte in bytes). -/
def Bytes4.toList (a : Bytes4) : List Nat :=
  [a.b0, a.b1, a.b2, a.b3]

/-- ChunkType stores a 4-byte array, field chunks. -/
structure ChunkType where
  chunks : Bytes4
deriving DecidableEq, Repr

/-- The two variants of ChunkTypeError. -/
inductive ChunkTypeError where
  | InvalidCharacter (byte : Nat)
  | InvalidLength (length : Nat)
deriving DecidableEq, Repr

/-- The boxed error returned by from_str: either a ChunkTypeError, or the
TryFromSliceError produced by the final slice-to-array conversion. -/
inductive FromStrError where
  | chunkTypeError (e : ChunkTypeError)
  | tryFromSliceError
deriving DecidableEq, Repr

/-- is_valid_byte: byte.is_ascii_alphabetic(), i.e. 65..=90 or 97..=122. -/
def ChunkType.is_valid_byte (byte : Nat) : Bool :=
  (65 ≤ byte && byte ≤ 90) || (97 ≤ byte && byte ≤ 122)

/-- The for-loop of from_str: returns the first byte failing is_valid_byte,
if any. -/
def findInvalidByte : List Nat → Option Nat
  | [] => none
  | c :: rest =>
    if ! ChunkType.is_valid_byte c then some c else findInvalidByte rest

/-- The slice-to-array conversion <[u8; 4]>::try_from(characters): succeeds
exactly when the slice has 4 elements. -/
def arrayFromSlice : List Nat → Option Bytes4
  | [a, b, c, d] => some ⟨a, b, c, d⟩
  | _ => none

/-- from_str (FromStr for ChunkType): length check, per-byte loop, then the
slice-to-array conversion. -/
def ChunkType.from_str (s : List Nat) : Except FromStrError ChunkType :=
  if s.length ≠ 4 then
    .error (.chunkTypeError (.InvalidLength s.length))
  else
    match findInvalidByte s with
    | some c => .error (.chunkTypeError (.InvalidCharacter c))
    | none =>
      match arrayFromSlice s with
      | some res => .ok ⟨res⟩
      | none => .error .tryFromSliceError

/-- TryFrom<[u8; 4]> for ChunkType: always Ok, no validation. -/
def ChunkType.try_from (bytes : Bytes4) : Except FromStrError ChunkType :=
  .ok ⟨bytes⟩

/-- bytes(): returns the raw 4-byte array. -/
def ChunkType.bytes (t : ChunkType) : Bytes4 :=
  t.chunks

/-- PartialEq for ChunkType: self.chunks == other.chunks, the structural
byte-for-byte array comparison. -/
def ChunkType.eq (x y : ChunkType) : Bool :=
  decide (x.chunks = y.chunks)

/-- is_critical: match chunks[0] >> 5 & 1 with 0 => true, _ => false. -/
def ChunkType.is_critical (t : ChunkType) : Bool :=
  match t.chunks.b0 >>> 5 &&& 1 with
  | 0 => true
  | _ => false

/-- is_public: match chunks[1] >> 5 & 1 with 0 => true, _ => false. -/
def ChunkType.is_public (t : ChunkType) : Bool :=
  match t.chunks.b1 >>> 5 &&& 1 with
  | 0 => true
  | _ => false

/-- is_reserved_bit_valid: match chunks[2] >> 5 & 1 with 0 => true,
_ => false. -/
def ChunkType.is_reserved_bit_valid (t : ChunkType) : Bool :=
  match t.chunks.b2 >>> 5 &&& 1 with
  | 0 => true
  | _ => false

/-- is_safe_to_copy: match chunks[3] >> 5 & 1 with 1 => true, _ => false. -/
def ChunkType.is_safe_to_copy (t : ChunkType) : Bool :=
  match t.chunks.b3 >>> 5 &&& 1 with
  | 1 => true
  | _ => false

/-- is_valid: loop over bytes() returning false at the first byte failing
is_valid_byte, then is_reserved_bit_valid. -/
def ChunkType.is_valid (t : ChunkType) : Bool :=
  t.bytes.toList.all ChunkType.is_valid_byte && t.is_reserved_bit_valid

/-- String::from_utf8_lossy, as used by the Display impl: UTF-8 decoding
with substitution of maximal subparts, producing the list of Unicode scalar
values (U+FFFD for each invalid subsequence).  The bit-mask/shift scalar
assembly of the source is written with % and *, equal under the branch
guards. -/
def utf8Lossy : List Nat → List Nat
  | [] => []
  | b0 :: rest =>
    if b0 < 0x80 then
      b0 :: utf8Lossy rest
    else if 0xC2 ≤ b0 && b0 ≤ 0xDF then
      match rest with
      | [] => [0xFFFD]
      | b1 :: rest1 =>
        if 0x80 ≤ b1 && b1 ≤ 0xBF then
          ((b0 % 32) * 64 + b1 % 64) :: utf8Lossy rest1
        else
          0xFFFD :: utf8Lossy (b1 :: rest1)
    else if 0xE0 ≤ b0 && b0 ≤ 0xEF then
      match rest with
      | [] => [0xFFFD]
      | b1 :: rest1 =>
        if (b0 = 0xE0 && 0xA0 ≤ b1 && b1 ≤ 0xBF) ||
           (0xE1 ≤ b0 && b0 ≤ 0xEC && 0x80 ≤ b1 && b1 ≤ 0xBF) ||
           (b0 = 0xED && 0x80 ≤ b1 && b1 ≤ 0x9F) ||
           (0xEE ≤ b0 && b0 ≤ 0xEF && 0x80 ≤ b1 && b1 ≤ 0xBF) then
          match rest1 with
          | [] => [0xFFFD]
          | b2 :: rest2 =>
            if 0x80 ≤ b2 && b2 ≤ 0xBF then
              ((b0 % 16) * 4096 + (b1 % 64) * 64 + b2 % 64) :: utf8Lossy rest2
            else
              0xFFFD :: utf8Lossy (b2 :: rest2)
        else
          0xFFFD :: utf8Lossy (b1 :: rest1)
    else if 0xF0 ≤ b0 && b0 ≤ 0xF4 then
      match rest with
      | [] => [0xFFFD]
      | b1 :: rest1 =>
        if (b0 = 0xF0 && 0x90 ≤ b1 && b1 ≤ 0xBF) ||
           (0xF1 ≤ b0 && b0 ≤ 0xF3 && 0x80 ≤ b1 && b1 ≤ 0xBF) ||
           (b0 = 0xF4 && 0x80 ≤ b1 && b1 ≤ 0x8F) then
          match rest1 with
          | [] => [0xFFFD]
          | b2 :: rest2 =>
            if 0x80 ≤ b2 && b2 ≤ 0xBF then
              match rest2 with
              | [] => [0xFFFD]
              | b3 :: rest3 =>
                if 0x80 ≤ b3 && b3 ≤ 0xBF then
                  ((b0 % 8) * 262144 + (b1 % 64) * 4096 + (b2 % 64) * 64 +
                    b3 % 64) :: utf8Lossy rest3
                else
                  0xFFFD :: utf8Lossy (b3 :: rest3)
            else
              0xFFFD :: utf8Lossy (b2 :: rest2)
        else
          0xFFFD :: utf8Lossy (b1 :: rest1)
    else
      0xFFFD :: utf8Lossy rest
termination_by l => l.length
decreasing_by all_goals simp [List.length_cons] <;> omega

/-- Display for ChunkType: renders the 4 bytes via String::from_utf8_lossy,
modelled as the list of Unicode scalar values of the rendered string. -/
def ChunkType.to_text (t : ChunkType) : List Nat :=
  utf8Lossy t.chunks.toList

/-- A Nat is a Unicode scalar value: below 0x110000 and not a surrogate. -/
def isUnicodeScalar (n : Nat) : Bool :=
  n < 0x110000 && !(0xD800 ≤ n && n ≤ 0xDFFF)

/-- Classifies a from_str result as the unreachable slice-conversion error
branch. -/
def isSliceError : Except FromStrError ChunkType → Bool
  | .error .tryFromSliceError => true
  | _ => false

/-! Helper lemmas. -/

/-- is_valid_byte as an arithmetic range predicate. -/
lemma is_valid_byte_iff (b : Nat) :
    ChunkType.is_valid_byte b = true ↔ (65 ≤ b ∧ b ≤ 90) ∨ (97 ≤ b ∧ b ≤ 122) := by
  simp [ChunkType.is_valid_byte]

/-- An ASCII alphabetic byte is below 0x80. -/
lemma is_valid_byte_lt (b : Nat) (h : ChunkType.is_valid_byte b = true) :
    b < 0x80 := by
  rcases (is_valid_byte_iff b).1 h with h1 | h1 <;> omega

/-- is_critical inspects bit 5 of byte 0 with zero polarity. -/
lemma is_critical_iff (t : ChunkType) :
    t.is_critical = true ↔ Nat.testBit t.chunks.b0 5 = false := by
  have h1 : t.chunks.b0 >>> 5 &&& 1 = t.chunks.b0 / 32 % 2 := by
    rw [Nat.shiftRight_eq_div_pow, Nat.and_one_is_mod]
  have h2 : Nat.testBit t.chunks.b0 5 = decide (t.chunks.b0 / 32 % 2 = 1) := by
    rw [Nat.testBit_to_div_mod]
  rcases Nat.mod_two_eq_zero_or_one (t.chunks.b0 / 32) with h | h <;>
    simp [ChunkType.is_critical, h1, h2, h]

/-- is_public inspects bit 5 of byte 1 with zero polarity. -/
lemma is_public_iff (t : ChunkType) :
    t.is_public = true ↔ Nat.testBit t.chunks.b1 5 = false := by
  have h1 : t.chunks.b1 >>> 5 &&& 1 = t.chunks.b1 / 32 % 2 := by
    rw [Nat.shiftRight_eq_div_pow, Nat.and_one_is_mod]
  have h2 : Nat.testBit t.chunks.b1 5 = decide (t.chunks.b1 / 32 % 2 = 1) := by
    rw [Nat.testBit_to_div_mod]
  rcases Nat.mod_two_eq_zero_or_one (t.chunks.b1 / 32) with h | h <;>
    simp [ChunkType.is_public, h1, h2, h]

/-- is_reserved_bit_valid inspects bit 5 of byte 2 with zero polarity. -/
lemma is_reserved_bit_valid_iff (t : ChunkType) :
    t.is_reserved_bit_valid = true ↔ Nat.testBit t.chunks.b2 5 = false := by
  have h1 : t.chunks.b2 >>> 5 &&& 1 = t.chunks.b2 / 32 % 2 := by
    rw [Nat.shiftRight_eq_div_pow, Nat.and_one_is_mod]
  have h2 : Nat.testBit t.chunks.b2 5 = decide (t.chunks.b2 / 32 % 2 = 1) := by
    rw [Nat.testBit_to_div_mod]
  rcases Nat.mod_two_eq_zero_or_one (t.chunks.b2 / 32) with h | h <;>
    simp [ChunkType.is_reserved_bit_valid, h1, h2, h]

/-- is_safe_to_copy inspects bit 5 of byte 3 with one polarity. -/
lemma is_safe_to_copy_iff (t : ChunkType) :
    t.is_safe_to_copy = true ↔ Nat.testBit t.chunks.b3 5 = true := by
  have h1 : t.chunks.b3 >>> 5 &&& 1 = t.chunks.b3 / 32 % 2 := by
    rw [Nat.shiftRight_eq_div_pow, Nat.and_one_is_mod]
  have h2 : Nat.testBit t.chunks.b3 5 = decide (t.chunks.b3 / 32 % 2 = 1) := by
    rw [Nat.testBit_to_div_mod]
  rcases Nat.mod_two_eq_zero_or_one (t.chunks.b3 / 32) with h | h <;>
    simp [ChunkType.is_safe_to_copy, h1, h2, h]

/-- A list of length 4 has exactly four elements. -/
lemma length_four_exists (l : List Nat) (h : l.length = 4) :
    ∃ a b c d, l = [a, b, c, d] := by
  rcases l with _ | ⟨a, _ | ⟨b, _ | ⟨c, _ | ⟨d, _ | ⟨e, tl⟩⟩⟩⟩⟩ <;>
    simp only [List.length_cons, List.length_nil] at h <;>
    first
      | omega
      | exact ⟨a, b, c, d, rfl⟩

/-- The validation loop finds nothing iff every byte passes is_valid_byte. -/
lemma findInvalidByte_eq_none_iff (l : List Nat) :
    findInvalidByte l = none ↔ ∀ b ∈ l, ChunkType.is_valid_byte b = true := by
  induction l with
  | nil => simp [findInvalidByte]
  | cons c rest ih =>
    by_cases hc : ChunkType.is_valid_byte c = true
    · simp [findInvalidByte, hc, ih]
    · apply iff_of_false
      · simp [findInvalidByte, hc]
      · intro hall
        exact hc (hall c (by simp))

/-- The validation loop is List.find? over the negated byte predicate. -/
lemma findInvalidByte_eq_find (l : List Nat) :
    findInvalidByte l = l.find? (fun x => ! ChunkType.is_valid_byte x) := by
  induction l with
  | nil => rfl
  | cons c rest ih =>
    by_cases hc : ChunkType.is_valid_byte c = true
    · simp [findInvalidByte, List.find?, hc, ih]
    · simp [findInvalidByte, List.find?, hc]

/-- Inversion of a successful from_str: the input is the byte list of the
resulting tag, and every input byte passed validation. -/
lemma from_str_ok_inv (s : List Nat) (t : ChunkType)
    (h : ChunkType.from_str s = Except.ok t) :
    s = t.chunks.toList ∧ ∀ b ∈ s, ChunkType.is_valid_byte b = true := by
  by_cases hl : s.length = 4
  · obtain ⟨a, b, c, d, rfl⟩ := length_four_exists s hl
    cases hf : findInvalidByte [a, b, c, d] with
    | none =>
      have hv := (findInvalidByte_eq_none_iff _).1 hf
      simp [ChunkType.from_str, hf, arrayFromSlice] at h
      subst h
      exact ⟨rfl, hv⟩
    | some x =>
      simp [ChunkType.from_str, hf] at h
  · simp [ChunkType.from_str, hl] at h

/-! UTF-8 lossy decoding lemmas. -/

/-- Lossy decoding of an all-ASCII byte list is the identity. -/
lemma utf8Lossy_ascii (l : List Nat) (h : ∀ b ∈ l, b < 0x80) :
    utf8Lossy l = l := by
  induction l with
  | nil => rw [utf8Lossy.eq_def]
  | cons b rest ih =>
    have hb : b < 0x80 := h b (by simp)
    have ih2 := ih (fun x hx => h x (by simp [hx]))
    rw [utf8Lossy.eq_def]
    simp [hb, ih2]

set_option maxHeartbeats 1000000 in
/-- Every scalar emitted by lossy decoding is a valid Unicode scalar value. -/
lemma utf8Lossy_valid (l : List Nat) :
    ∀ c ∈ utf8Lossy l, isUnicodeScalar c = true := by
  induction l using utf8Lossy.induct
  case case1 =>
    intro x hx
    rw [utf8Lossy.eq_def] at hx
    simp at hx
  case case2 c rest hlt ih =>
    intro x hx
    rw [utf8Lossy.eq_def] at hx
    simp only [if_pos hlt, List.mem_cons] at hx
    rcases hx with rfl | hx
    · simp [isUnicodeScalar]; omega
    · exact ih x hx
  case case3 c hnlt h2 =>
    intro x hx
    rw [utf8Lossy.eq_def] at hx
    simp only [if_neg hnlt, if_pos h2, List.mem_cons, List.not_mem_nil, or_false] at hx
    subst hx
    decide
  case case4 c hnlt h2 c1 rest hc1 ih =>
    intro x hx
    rw [utf8Lossy.eq_def] at hx
    simp only [if_neg hnlt, if_pos h2, if_pos hc1, List.mem_cons] at hx
    rcases hx with rfl | hx
    · simp only [Bool.and_eq_true, decide_eq_true_eq] at h2 hc1
      simp [isUnicodeScalar]
      omega
    · exact ih x hx
  case case5 c hnlt h2 c1 rest hc1 ih =>
    intro x hx
    rw [utf8Lossy.eq_def] at hx
    simp only [if_neg hnlt, if_pos h2, if_neg hc1, List.mem_cons] at hx
    rcases hx with rfl | hx
    · decide
    · exact ih x hx
  case case6 c hnlt h2 h3 =>
    intro x hx
    rw [utf8Lossy.eq_def] at hx
    simp only [if_neg hnlt, if_neg h2, if_pos h3, List.mem_cons, List.not_mem_nil,
      or_false] at hx
    subst hx
    decide
  case case7 c hnlt h2 h3 c1 hc1 =>
    intro x hx
    rw [utf8Lossy.eq_def] at hx
    simp only [if_neg hnlt, if_neg h2, if_pos h3, if_pos hc1, List.mem_cons,
      List.not_mem_nil, or_false] at hx
    subst hx
    decide
  case case8 c hnlt h2 h3 c1 hc1 c2 rest hc2 ih =>
    intro x hx
    rw [utf8Lossy.eq_def] at hx
    simp only [if_neg hnlt, if_neg h2, if_pos h3, if_pos hc1, if_pos hc2,
      List.mem_cons] at hx
    rcases hx with rfl | hx
    · simp only [Bool.and_eq_true, Bool.or_eq_true, decide_eq_true_eq] at h3 hc1 hc2
      simp [isUnicodeScalar]
      omega
    · exact ih x hx
  case case9 c hnlt h2 h3 c1 hc1 c2 rest hc2 ih =>
    intro x hx
    rw [utf8Lossy.eq_def] at hx
    simp only [if_neg hnlt, if_neg h2, if_pos h3, if_pos hc1, if_neg hc2,
      List.mem_cons] at hx
    rcases hx with rfl | hx
    · decide
    · exact ih x hx
  case case10 c hnlt h2 h3 c1 rest hc1 ih =>
    intro x hx
    rw [utf8Lossy.eq_def] at hx
    simp only [if_neg hnlt, if_neg h2, if_pos h3, if_neg hc1, List.mem_cons] at hx
    rcases hx with rfl | hx
    · decide
    · exact ih x hx
  case case11 c hnlt h2 h3 h4 =>
    intro x hx
    rw [utf8Lossy.eq_def] at hx
    simp only [if_neg hnlt, if_neg h2, if_neg h3, if_pos h4, List.mem_cons,
      List.not_mem_nil, or_false] at hx
    subst hx
    decide
  case case12 c hnlt h2 h3 h4 c1 hc1 =>
    intro x hx
    rw [utf8Lossy.eq_def] at hx
    simp only [if_neg hnlt, if_neg h2, if_neg h3, if_pos h4, if_pos hc1,
      List.mem_cons, List.not_mem_nil, or_false] at hx
    subst hx
    decide
  case case13 c hnlt h2 h3 h4 c1 hc1 c2 hc2 =>
    intro x hx
    rw [utf8Lossy.eq_def] at hx
    simp only [if_neg hnlt, if_neg h2, if_neg h3, if_pos h4, if_pos hc1, if_pos hc2,
      List.mem_cons, List.not_mem_nil, or_false] at hx
    subst hx
    decide
  case case14 c hnlt h2 h3 h4 c1 hc1 c2 hc2 c3 rest hc3 ih =>
    intro x hx
    rw [utf8Lossy.eq_def] at hx
    simp only [if_neg hnlt, if_neg h2, if_neg h3, if_pos h4, if_pos hc1, if_pos hc2,
      if_pos hc3, List.mem_cons] at hx
    rcases hx with rfl | hx
    · simp only [Bool.and_eq_true, Bool.or_eq_true, decide_eq_true_eq] at h4 hc1 hc2 hc3
      simp [isUnicodeScalar]
      omega
    · exact ih x hx
  case case15 c hnlt h2 h3 h4 c1 hc1 c2 hc2 c3 rest hc3 ih =>
    intro x hx
    rw [utf8Lossy.eq_def] at hx
    simp only [if_neg hnlt, if_neg h2, if_neg h3, if_pos h4, if_pos hc1, if_pos hc2,
      if_neg hc3, List.mem_cons] at hx
    rcases hx with rfl | hx
    · decide
    · exact ih x hx
  case case16 c hnlt h2 h3 h4 c1 hc1 c2 rest hc2 ih =>
    intro x hx
    rw [utf8Lossy.eq_def] at hx
    simp only [if_neg hnlt, if_neg h2, if_neg h3, if_pos h4, if_pos hc1, if_neg hc2,
      List.mem_cons] at hx
    rcases hx with rfl | hx
    · decide
    · exact ih x hx
  case case17 c hnlt h2 h3 h4 c1 rest hc1 ih =>
    intro x hx
    rw [utf8Lossy.eq_def] at hx
    simp only [if_neg hnlt, if_neg h2, if_neg h3, if_pos h4, if_neg hc1,
      List.mem_cons] at hx
    rcases hx with rfl | hx
    · decide
    · exact ih x hx
  case case18 c rest hnlt h2 h3 h4 ih =>
    intro x hx
    rw [utf8Lossy.eq_def] at hx
    simp only [if_neg hnlt, if_neg h2, if_neg h3, if_neg h4, List.mem_cons] at hx
    rcases hx with rfl | hx
    · decide
    · exact ih x hx

/-! Claim theorems. -/

/-- C1: For every Tag t, is_valid(t) returns true if and only if all 4 bytes
of t are ASCII alphabetic (each in 65-90 or 97-122) and bit 5 of byte 2 is 0
(the reserved-bit check passes). -/
theorem c1_is_valid_iff (t : ChunkType) :
    t.is_valid = true ↔
      ((∀ b ∈ t.bytes.toList, (65 ≤ b ∧ b ≤ 90) ∨ (97 ≤ b ∧ b ≤ 122)) ∧
        Nat.testBit t.bytes.b2 5 = false) := by
  rw [ChunkType.is_valid, Bool.and_eq_true, List.all_eq_true,
    is_reserved_bit_valid_iff]
  constructor
  · rintro ⟨hall, hres⟩
    exact ⟨fun b hb => (is_valid_byte_iff b).1 (hall b hb), hres⟩
  · rintro ⟨hall, hres⟩
    exact ⟨fun b hb => (is_valid_byte_iff b).2 (hall b hb), hres⟩

/-- C2: Each flag query inspects bit 5 (the 0x20 bit) of exactly one byte
with the specified polarity: is_critical is byte 0 with zero polarity,
is_public byte 1 with zero polarity, is_reserved_bit_valid byte 2 with zero
polarity, is_safe_to_copy byte 3 with inverted (one) polarity. -/
theorem c2_bit_flags (t : ChunkType) :
    (t.is_critical = true ↔ Nat.testBit t.bytes.b0 5 = false) ∧
    (t.is_public = true ↔ Nat.testBit t.bytes.b1 5 = false) ∧
    (t.is_reserved_bit_valid = true ↔ Nat.testBit t.bytes.b2 5 = false) ∧
    (t.is_safe_to_copy = true ↔ Nat.testBit t.bytes.b3 5 = true) :=
  ⟨is_critical_iff t, is_public_iff t, is_reserved_bit_valid_iff t,
    is_safe_to_copy_iff t⟩

/-- C3: Construction from raw bytes always succeeds with no validation, and
the bytes() of the resulting tag returns exactly the input array. -/
theorem c3_try_from_roundtrip (b : Bytes4) :
    ChunkType.try_from b = Except.ok (ChunkType.mk b) ∧
      (ChunkType.mk b).bytes = b :=
  ⟨rfl, rfl⟩

/-- C4: For every byte string whose length is not 4, from_str fails with
InvalidLength carrying the observed byte length; no Tag is produced. -/
theorem c4_invalid_length (s : List Nat) (h : s.length ≠ 4) :
    ChunkType.from_str s =
      Except.error (.chunkTypeError (.InvalidLength s.length)) := by
  simp [ChunkType.from_str, h]

/-- C4 witness at the 3-byte input [82, 117, 83]. -/
theorem c4_invalid_length_witness :
    ChunkType.from_str [82, 117, 83] =
      Except.error (.chunkTypeError (.InvalidLength 3)) :=
  c4_invalid_length [82, 117, 83] (by decide)

/-- C5: For every 4-byte string containing a non-alphabetic byte, from_str
fails with InvalidCharacter carrying the first (leftmost) offending byte
value; no Tag is produced. -/
theorem c5_invalid_character (s : List Nat) (b : Nat) (hlen : s.length = 4)
    (hfind : s.find? (fun x => ! ChunkType.is_valid_byte x) = some b) :
    ChunkType.from_str s =
      Except.error (.chunkTypeError (.InvalidCharacter b)) := by
  have hf : findInvalidByte s = some b := by
    rw [findInvalidByte_eq_find]; exact hfind
  simp [ChunkType.from_str, hlen, hf]

/-- C5 witness at the input "Ru1t": the offending byte is 49. -/
theorem c5_invalid_character_witness :
    ChunkType.from_str [82, 117, 49, 116] =
      Except.error (.chunkTypeError (.InvalidCharacter 49)) :=
  c5_invalid_character [82, 117, 49, 116] 49 (by decide) (by decide)

/-- C6: For every 4-byte string in which every byte is ASCII alphabetic,
from_str succeeds and the bytes() of the tag equals the byte sequence of the
input (original case preserved), so rendering those bytes as text gives the
input back. -/
theorem c6_from_str_ok (s : List Nat) (hlen : s.length = 4)
    (hval : ∀ b ∈ s, ChunkType.is_valid_byte b = true) :
    ∃ t : ChunkType, ChunkType.from_str s = Except.ok t ∧
      t.bytes.toList = s ∧ t.to_text = s := by
  obtain ⟨a, b, c, d, rfl⟩ := length_four_exists s hlen
  have hnone : findInvalidByte [a, b, c, d] = none :=
    (findInvalidByte_eq_none_iff _).2 hval
  refine ⟨⟨⟨a, b, c, d⟩⟩, ?_, rfl, ?_⟩
  · simp [ChunkType.from_str, hnone, arrayFromSlice]
  · show utf8Lossy [a, b, c, d] = [a, b, c, d]
    exact utf8Lossy_ascii _ (fun x hx => is_valid_byte_lt x (hval x hx))

/-- C6 witness at the input "RuSt". -/
theorem c6_from_str_ok_witness :
    ∃ t : ChunkType, ChunkType.from_str [82, 117, 83, 116] = Except.ok t ∧
      t.bytes.toList = [82, 117, 83, 116] ∧ t.to_text = [82, 117, 83, 116] :=
  c6_from_str_ok [82, 117, 83, 116] (by decide) (by decide)

/-- C7: Text rendering is total on every Tag, also outside the alphabetic
range: every rendered element is a valid Unicode scalar value (invalid bytes
are replaced, never rejected), and for a tag built from text the rendered
string equals the original string. -/
theorem c7_to_text_total (t : ChunkType) :
    (∀ c ∈ t.to_text, isUnicodeScalar c = true) ∧
    (∀ s : List Nat, ChunkType.from_str s = Except.ok t → t.to_text = s) := by
  constructor
  · exact utf8Lossy_valid t.chunks.toList
  · intro s hs
    obtain ⟨hlist, hval⟩ := from_str_ok_inv s t hs
    subst hlist
    exact utf8Lossy_ascii _ (fun x hx => is_valid_byte_lt x (hval x hx))

/-- C7 witness: the tag built from "RuSt" renders as "RuSt". -/
theorem c7_to_text_total_witness :
    (ChunkType.mk ⟨82, 117, 83, 116⟩).to_text = [82, 117, 83, 116] :=
  (c7_to_text_total (ChunkType.mk ⟨82, 117, 83, 116⟩)).2
    [82, 117, 83, 116] (by rfl)

/-- C8: Two tags are equal iff their 4 underlying byte arrays are equal
byte-for-byte, and this equality is reflexive, symmetric and transitive. -/
theorem c8_eq_structural :
    (∀ x y : ChunkType, ChunkType.eq x y = true ↔
        (x.bytes.b0 = y.bytes.b0 ∧ x.bytes.b1 = y.bytes.b1 ∧
         x.bytes.b2 = y.bytes.b2 ∧ x.bytes.b3 = y.bytes.b3)) ∧
    (∀ x : ChunkType, ChunkType.eq x x = true) ∧
    (∀ x y : ChunkType, ChunkType.eq x y = true → ChunkType.eq y x = true) ∧
    (∀ x y z : ChunkType, ChunkType.eq x y = true → ChunkType.eq y z = true →
        ChunkType.eq x z = true) := by
  refine ⟨?_, ?_, ?_, ?_⟩
  · rintro ⟨⟨a, b, c, d⟩⟩ ⟨⟨e, f, g, h⟩⟩
    simp [ChunkType.eq, ChunkType.bytes, Bytes4.mk.injEq]
  · intro x
    simp [ChunkType.eq]
  · intro x y h
    simp only [ChunkType.eq, decide_eq_true_eq] at h ⊢
    exact h.symm
  · intro x y z h1 h2
    simp only [ChunkType.eq, decide_eq_true_eq] at h1 h2 ⊢
    exact h1.trans h2

/-- C8 witness: transitivity applied at the concrete tag "RuSt". -/
theorem c8_eq_structural_witness :
    ChunkType.eq (ChunkType.mk ⟨82, 117, 83, 116⟩)
      (ChunkType.mk ⟨82, 117, 83, 116⟩) = true :=
  c8_eq_structural.2.2.2 (ChunkType.mk ⟨82, 117, 83, 116⟩)
    (ChunkType.mk ⟨82, 117, 83, 116⟩) (ChunkType.mk ⟨82, 117, 83, 116⟩)
    (by decide) (by decide)

/-- C9: The slice-to-array conversion at the end of from_str is unreachable
as an error: for every input, from_str never returns the slice-conversion
error, only InvalidLength, InvalidCharacter, or a Tag. -/
theorem c9_no_slice_error (s : List Nat) :
    isSliceError (ChunkType.from_str s) = false := by
  by_cases hl : s.length = 4
  · obtain ⟨a, b, c, d, rfl⟩ := length_four_exists s hl
    cases hf : findInvalidByte [a, b, c, d] <;>
      simp [ChunkType.from_str, hf, arrayFromSlice, isSliceError]
  · simp [ChunkType.from_str, hl, isSliceError]

/-- C10: Every tag obtained from a successful from_str has 4 ASCII
alphabetic bytes, so on such tags is_valid agrees with
is_reserved_bit_valid. -/
theorem c10_from_str_valid_iff_reserved (s : List Nat) (t : ChunkType)
    (h : ChunkType.from_str s = Except.ok t) :
    (∀ b ∈ t.bytes.toList, ChunkType.is_valid_byte b = true) ∧
    t.is_valid = t.is_reserved_bit_valid := by
  obtain ⟨hlist, hval⟩ := from_str_ok_inv s t h
  have hv : ∀ b ∈ t.bytes.toList, ChunkType.is_valid_byte b = true :=
    fun b hb => hval b (hlist ▸ hb)
  refine ⟨hv, ?_⟩
  have hall : t.bytes.toList.all ChunkType.is_valid_byte = true :=
    List.all_eq_true.2 hv
  simp [ChunkType.is_valid, hall]

/-- C10 witness at the tag built from "RuSt". -/
theorem c10_from_str_valid_iff_reserved_witness :
    (ChunkType.mk ⟨82, 117, 83, 116⟩).is_valid =
      (ChunkType.mk ⟨82, 117, 83, 116⟩).is_reserved_bit_valid :=
  (c10_from_str_valid_iff_reserved [82, 117, 83, 116]
    (ChunkType.mk ⟨82, 117, 83, 116⟩) (by rfl)).2
